import Mathlib

/-!
Shallow embedding of the `multidimensional-self-expanding-agent` core pipeline.

Python mappings (`dict`) of string keys to numeric values are embedded as
association lists over `ℚ`. Python floats are exact rationals: every
binary64 value is one, and where a result depends on IEEE-754 rounding
(the counterfactual transform, the field-generation arithmetic) the
correctly rounded operation is modelled explicitly via `roundDouble`
(round to nearest, ties to even, 53 significant bits); comparisons, `min`/
`max` and the gates' threshold checks involve no rounding and use exact
`ℚ` order. Exceptions (`InvariantViolation`, `EthicsViolation`) are
embedded as `Except String` results, where the `String` carries the
exception message.
-/

/-- A Python `dict[str, float]`, embedded as an association list.
Insertion (`set`) replaces an existing binding in place or appends a new one,
matching `d[k] = v`; `getD` is `d.get(k, default)`. -/
abbrev FieldMap := List (String × ℚ)

def FieldMap.getD (f : FieldMap) (k : String) (d : ℚ) : ℚ :=
  match f.lookup k with
  | some v => v
  | none => d

def FieldMap.set : FieldMap → String → ℚ → FieldMap
  | [], k, v => [(k, v)]
  | (k', v') :: rest, k, v =>
      if k' = k then (k, v) :: rest else (k', v') :: FieldMap.set rest k v

@[simp]
theorem FieldMap.lookup_set_self (f : FieldMap) (k : String) (v : ℚ) :
    (f.set k v).lookup k = some v := by
  induction f with
  | nil => simp [FieldMap.set, List.lookup]
  | cons hd tl ih =>
      obtain ⟨k', v'⟩ := hd
      by_cases h : k' = k
      · simp [FieldMap.set, h, List.lookup]
      · simp only [FieldMap.set, if_neg h, List.lookup]
        have : (k == k') = false := by
          simp [BEq.beq]
          exact fun hk => h hk.symm
        simp [this, ih]

@[simp]
theorem FieldMap.lookup_set_ne (f : FieldMap) (k k' : String) (v : ℚ)
    (h : k' ≠ k) : (f.set k v).lookup k' = f.lookup k' := by
  induction f with
  | nil =>
      simp only [FieldMap.set, List.lookup]
      have : (k' == k) = false := by simpa using h
      simp [this]
  | cons hd tl ih =>
      obtain ⟨k₀, v₀⟩ := hd
      by_cases hk : k₀ = k
      · subst hk
        simp only [FieldMap.set, if_pos rfl, List.lookup]
        have : (k' == k₀) = false := by simpa using h
        simp [this]
      · simp only [FieldMap.set, if_neg hk, List.lookup]
        by_cases hk' : k' = k₀
        · subst hk'
          simp
        · have h1 : (k' == k₀) = false := by simpa using hk'
          simp [h1, ih]

theorem FieldMap.getD_set_self (f : FieldMap) (k : String) (v d : ℚ) :
    (f.set k v).getD k d = v := by
  simp [FieldMap.getD]

theorem FieldMap.getD_set_ne (f : FieldMap) (k k' : String) (v d : ℚ)
    (h : k' ≠ k) : (f.set k v).getD k' d = f.getD k' d := by
  simp [FieldMap.getD, FieldMap.lookup_set_ne f k k' v h]

/-- Evaluation form of `List.lookup` on a cons cell, with a propositional
key test so concrete string keys reduce. -/
theorem FieldMap.lookup_cons (k k' : String) (v : ℚ) (l : FieldMap) :
    List.lookup k' ((k, v) :: l) = if k' = k then some v else List.lookup k' l := by
  by_cases h : k' = k
  · simp [List.lookup, h]
  · have hb : (k' == k) = false := by simpa using h
    simp [List.lookup, hb, h]

/-! ### Binary64 rounding

Python floats are IEEE-754 binary64 values and Python's `+`, `-`, `*` are
correctly rounded. Where a claim's truth hinges on the exact float result
(the counterfactual boundary and the end-to-end field values), the
embedding models the rounding explicitly: every binary64 value is an exact
rational, and `roundDouble` is round-to-nearest, ties-to-even at 53
significant bits. Overflow and subnormals are not modelled; every value in
these claims is in the normal range. -/

/-- Floor of the base-2 logarithm of a positive rational (junk value 0 for
nonpositive input). -/
def floorLog2 (q : ℚ) : ℤ :=
  if q ≤ 0 then 0
  else
    let L : ℤ := (Nat.log 2 q.num.toNat : ℤ) - (Nat.log 2 q.den : ℤ)
    if (2:ℚ)^L ≤ q then L else L - 1

/-- Round a rational to the nearest integer, ties to even. -/
def roundInt (x : ℚ) : ℤ :=
  let n := ⌊x⌋
  let frac := x - n
  if frac < 1/2 then n
  else if 1/2 < frac then n + 1
  else if n % 2 = 0 then n else n + 1

/-- Round a positive rational to 53 significant bits, ties to even. -/
def roundPos (q : ℚ) : ℚ :=
  (roundInt (q * (2:ℚ)^(52 - floorLog2 q)) : ℚ) * (2:ℚ)^(floorLog2 q - 52)

/-- IEEE-754 binary64 rounding of a rational (normal range). -/
def roundDouble (q : ℚ) : ℚ :=
  if q = 0 then 0
  else if q < 0 then -(roundPos (-q))
  else roundPos q

/-- The binary64 value denoted by a Python float literal. -/
def pyLit (q : ℚ) : ℚ := roundDouble q

/-- Python float addition: exact sum, then binary64 rounding. -/
def pyAdd (x y : ℚ) : ℚ := roundDouble (x + y)

/-- Python float subtraction: exact difference, then binary64 rounding. -/
def pySub (x y : ℚ) : ℚ := roundDouble (x - y)

/-- Python float multiplication: exact product, then binary64 rounding. -/
def pyMul (x y : ℚ) : ℚ := roundDouble (x * y)

/-- `q` is exactly a binary64 value. -/
def IsDouble (q : ℚ) : Prop := roundDouble q = q

theorem floorLog2_spec (q : ℚ) (hq : 0 < q) :
    (2:ℚ)^(floorLog2 q) ≤ q ∧ q < (2:ℚ)^(floorLog2 q + 1) := by
  have hq' : ¬ q ≤ 0 := not_le.mpr hq
  have hnum : (0:ℤ) < q.num := Rat.num_pos.mpr hq
  set n : ℕ := q.num.toNat with hn
  set d : ℕ := q.den with hd
  have hn0 : n ≠ 0 := by
    simp only [hn]
    omega
  have hd0 : d ≠ 0 := q.den_nz
  have hqnd : q = (n : ℚ) / (d : ℚ) := by
    have h1 : (n : ℚ) = (q.num : ℚ) := by
      rw [hn]
      have h2 : ((q.num.toNat : ℤ) : ℚ) = ((q.num : ℤ) : ℚ) := by
        rw [Int.toNat_of_nonneg hnum.le]
      exact_mod_cast h2
    rw [h1, hd]
    exact (Rat.num_div_den q).symm
  set A : ℕ := Nat.log 2 n with hA
  set Bn : ℕ := Nat.log 2 d with hB
  have hdQ : (0:ℚ) < (d : ℚ) := by
    have : 0 < d := Nat.pos_of_ne_zero hd0
    exact_mod_cast this
  have key1 : (2:ℚ)^(A:ℤ) ≤ (n:ℚ) := by
    have := Nat.pow_log_le_self 2 hn0
    rw [zpow_natCast]
    exact_mod_cast this
  have key2 : (n:ℚ) < (2:ℚ)^((A:ℤ)+1) := by
    have := Nat.lt_pow_succ_log_self (by norm_num : 1 < 2) n
    rw [show ((A:ℤ)+1) = ((A+1 : ℕ) : ℤ) by push_cast; ring, zpow_natCast]
    exact_mod_cast this
  have key3 : (2:ℚ)^(Bn:ℤ) ≤ (d:ℚ) := by
    have := Nat.pow_log_le_self 2 hd0
    rw [zpow_natCast]
    exact_mod_cast this
  have key4 : (d:ℚ) < (2:ℚ)^((Bn:ℤ)+1) := by
    have := Nat.lt_pow_succ_log_self (by norm_num : 1 < 2) d
    rw [show ((Bn:ℤ)+1) = ((Bn+1 : ℕ) : ℤ) by push_cast; ring, zpow_natCast]
    exact_mod_cast this
  have hqd : q * (d:ℚ) = (n:ℚ) := by
    rw [hqnd]
    field_simp
  have hupper : q < (2:ℚ)^((A:ℤ) - Bn + 1) := by
    have h1 : q * (2:ℚ)^(Bn:ℤ) ≤ q * (d:ℚ) := by
      exact mul_le_mul_of_nonneg_left key3 hq.le
    have h2 : q * (2:ℚ)^(Bn:ℤ) < (2:ℚ)^((A:ℤ)+1) := lt_of_le_of_lt (hqd ▸ h1) key2
    have h3 : (0:ℚ) < (2:ℚ)^(Bn:ℤ) := zpow_pos (by norm_num) _
    rw [show ((A:ℤ) - Bn + 1) = ((A:ℤ)+1) - Bn by ring, zpow_sub₀ (by norm_num : (2:ℚ) ≠ 0)]
    rw [lt_div_iff h3]
    exact h2
  have hlower : (2:ℚ)^((A:ℤ) - Bn - 1) < q := by
    have h1 : (2:ℚ)^(A:ℤ) ≤ q * (d:ℚ) := hqd ▸ key1
    have h2 : q * (d:ℚ) < q * (2:ℚ)^((Bn:ℤ)+1) := by
      exact mul_lt_mul_of_pos_left key4 hq
    have h3 : (0:ℚ) < (2:ℚ)^((Bn:ℤ)+1) := zpow_pos (by norm_num) _
    rw [show ((A:ℤ) - Bn - 1) = (A:ℤ) - ((Bn:ℤ)+1) by ring, zpow_sub₀ (by norm_num : (2:ℚ) ≠ 0)]
    rw [div_lt_iff h3]
    exact lt_of_le_of_lt h1 h2
  rw [floorLog2, if_neg hq']
  simp only [← hn, ← hd, ← hA, ← hB]
  by_cases hL : (2:ℚ)^((A:ℤ) - Bn) ≤ q
  · rw [if_pos hL]
    exact ⟨hL, hupper⟩
  · rw [if_neg hL]
    constructor
    · exact hlower.le
    · rw [show ((A:ℤ) - Bn - 1) + 1 = (A:ℤ) - Bn by ring]
      exact not_le.mp hL

theorem floorLog2_unique (q : ℚ) (E : ℤ)
    (h1 : (2:ℚ)^E ≤ q) (h2 : q < (2:ℚ)^(E+1)) : floorLog2 q = E := by
  have hq : 0 < q := lt_of_lt_of_le (zpow_pos (by norm_num) E) h1
  obtain ⟨g1, g2⟩ := floorLog2_spec q hq
  by_contra hne
  rcases lt_or_gt_of_ne hne with h | h
  · have : (2:ℚ)^(floorLog2 q + 1) ≤ (2:ℚ)^E :=
      zpow_le_zpow_right₀ (by norm_num) (by omega)
    exact absurd (lt_of_lt_of_le g2 (le_trans this h1)) (lt_irrefl q)
  · have : (2:ℚ)^(E+1) ≤ (2:ℚ)^(floorLog2 q) :=
      zpow_le_zpow_right₀ (by norm_num) (by omega)
    exact absurd (lt_of_lt_of_le h2 (le_trans this g1)) (lt_irrefl q)

theorem roundInt_ge_floor (x : ℚ) : ⌊x⌋ ≤ roundInt x := by
  rw [roundInt]
  split_ifs <;> omega

theorem roundInt_le_floor_add_one (x : ℚ) : roundInt x ≤ ⌊x⌋ + 1 := by
  rw [roundInt]
  split_ifs <;> omega

theorem roundInt_eq (x : ℚ) (M : ℤ)
    (h1 : (M:ℚ) - 1/2 < x) (h2 : x < (M:ℚ) + 1/2) : roundInt x = M := by
  rcases le_or_lt (M:ℚ) x with h | h
  · have hfl : ⌊x⌋ = M := by
      rw [Int.floor_eq_iff]
      exact ⟨h, by push_cast; linarith⟩
    rw [roundInt, hfl, if_pos (by push_cast; linarith)]
  · have hfl : ⌊x⌋ = M - 1 := by
      rw [Int.floor_eq_iff]
      push_cast
      constructor <;> linarith
    rw [roundInt, hfl]
    rw [if_neg (by push_cast; linarith), if_pos (by push_cast; linarith)]
    omega

theorem roundInt_half_even (M : ℤ) (hM : M % 2 = 0) :
    roundInt ((M:ℚ) - 1/2) = M := by
  have hfl : ⌊(M:ℚ) - 1/2⌋ = M - 1 := by
    rw [Int.floor_eq_iff]
    push_cast
    constructor <;> linarith
  rw [roundInt, hfl]
  rw [if_neg (by push_cast; linarith), if_neg (by push_cast; linarith),
    if_neg (by omega)]
  omega

theorem roundPos_eq (q : ℚ) (M E : ℤ)
    (h1 : (2:ℚ)^E ≤ q) (h2 : q < (2:ℚ)^(E+1))
    (h3 : (M:ℚ) - 1/2 < q * (2:ℚ)^(52 - E))
    (h4 : q * (2:ℚ)^(52 - E) < (M:ℚ) + 1/2) :
    roundPos q = (M:ℚ) * (2:ℚ)^(E - 52) := by
  rw [roundPos, floorLog2_unique q E h1 h2, roundInt_eq _ M h3 h4]

theorem roundPos_eq_tie (q : ℚ) (M E : ℤ)
    (h1 : (2:ℚ)^E ≤ q) (h2 : q < (2:ℚ)^(E+1))
    (h3 : q * (2:ℚ)^(52 - E) = (M:ℚ) - 1/2) (hM : M % 2 = 0) :
    roundPos q = (M:ℚ) * (2:ℚ)^(E - 52) := by
  rw [roundPos, floorLog2_unique q E h1 h2, h3, roundInt_half_even M hM]

theorem roundDouble_eq (q : ℚ) (M E : ℤ)
    (h1 : (2:ℚ)^E ≤ q) (h2 : q < (2:ℚ)^(E+1))
    (h3 : (M:ℚ) - 1/2 < q * (2:ℚ)^(52 - E))
    (h4 : q * (2:ℚ)^(52 - E) < (M:ℚ) + 1/2) :
    roundDouble q = (M:ℚ) * (2:ℚ)^(E - 52) := by
  have hq : 0 < q := lt_of_lt_of_le (zpow_pos (by norm_num) E) h1
  rw [roundDouble, if_neg (ne_of_gt hq), if_neg (not_lt.mpr hq.le)]
  exact roundPos_eq q M E h1 h2 h3 h4

theorem roundDouble_eq_tie (q : ℚ) (M E : ℤ)
    (h1 : (2:ℚ)^E ≤ q) (h2 : q < (2:ℚ)^(E+1))
    (h3 : q * (2:ℚ)^(52 - E) = (M:ℚ) - 1/2) (hM : M % 2 = 0) :
    roundDouble q = (M:ℚ) * (2:ℚ)^(E - 52) := by
  have hq : 0 < q := lt_of_lt_of_le (zpow_pos (by norm_num) E) h1
  rw [roundDouble, if_neg (ne_of_gt hq), if_neg (not_lt.mpr hq.le)]
  exact roundPos_eq_tie q M E h1 h2 h3 hM

theorem floorLog2_mono (x y : ℚ) (hx : 0 < x) (hxy : x ≤ y) :
    floorLog2 x ≤ floorLog2 y := by
  have hy : 0 < y := lt_of_lt_of_le hx hxy
  obtain ⟨gx1, gx2⟩ := floorLog2_spec x hx
  obtain ⟨gy1, gy2⟩ := floorLog2_spec y hy
  by_contra hc
  have hstep : floorLog2 y + 1 ≤ floorLog2 x := by omega
  have : (2:ℚ)^(floorLog2 y + 1) ≤ (2:ℚ)^(floorLog2 x) :=
    zpow_le_zpow_right₀ (by norm_num) hstep
  have : y < y := lt_of_lt_of_le gy2 (le_trans this (le_trans gx1 hxy))
  exact absurd this (lt_irrefl y)

theorem roundPos_lower (q : ℚ) (hq : 0 < q) :
    (2:ℚ)^(floorLog2 q) ≤ roundPos q := by
  obtain ⟨g1, g2⟩ := floorLog2_spec q hq
  rw [roundPos]
  have hscale : (0:ℚ) < (2:ℚ)^(52 - floorLog2 q) := zpow_pos (by norm_num) _
  have hx : (2:ℚ)^(52:ℤ) ≤ q * (2:ℚ)^(52 - floorLog2 q) := by
    calc (2:ℚ)^(52:ℤ) = (2:ℚ)^(floorLog2 q) * (2:ℚ)^(52 - floorLog2 q) := by
          rw [← zpow_add₀ (by norm_num : (2:ℚ) ≠ 0)]
          ring_nf
      _ ≤ q * (2:ℚ)^(52 - floorLog2 q) := by
          exact mul_le_mul_of_nonneg_right g1 hscale.le
  have hfl_int : (2^52 : ℤ) ≤ ⌊q * (2:ℚ)^(52 - floorLog2 q)⌋ := by
    apply Int.le_floor.mpr
    have h52 : ((2^52 : ℤ) : ℚ) = (2:ℚ)^(52:ℤ) := by norm_num
    rw [h52]
    exact hx
  have hm : (2:ℚ)^(52:ℤ) ≤ ((roundInt (q * (2:ℚ)^(52 - floorLog2 q)) : ℤ) : ℚ) := by
    have hri : (2^52 : ℤ) ≤ roundInt (q * (2:ℚ)^(52 - floorLog2 q)) :=
      le_trans hfl_int (roundInt_ge_floor _)
    have h52 : (2:ℚ)^(52:ℤ) = ((2^52 : ℤ) : ℚ) := by norm_num
    rw [h52]
    exact_mod_cast hri
  calc (2:ℚ)^(floorLog2 q)
      = (2:ℚ)^(52:ℤ) * (2:ℚ)^(floorLog2 q - 52) := by
        rw [← zpow_add₀ (by norm_num : (2:ℚ) ≠ 0)]
        ring_nf
    _ ≤ _ := by
        exact mul_le_mul_of_nonneg_right hm (zpow_pos (by norm_num : (0:ℚ) < 2) _).le

theorem roundPos_upper (q : ℚ) (hq : 0 < q) :
    roundPos q ≤ (2:ℚ)^(floorLog2 q + 1) := by
  obtain ⟨g1, g2⟩ := floorLog2_spec q hq
  rw [roundPos]
  have hscale : (0:ℚ) < (2:ℚ)^(52 - floorLog2 q) := zpow_pos (by norm_num) _
  have hx : q * (2:ℚ)^(52 - floorLog2 q) < (2:ℚ)^(53:ℤ) := by
    calc q * (2:ℚ)^(52 - floorLog2 q)
        < (2:ℚ)^(floorLog2 q + 1) * (2:ℚ)^(52 - floorLog2 q) := by
          exact mul_lt_mul_of_pos_right g2 hscale
      _ = (2:ℚ)^(53:ℤ) := by
          rw [← zpow_add₀ (by norm_num : (2:ℚ) ≠ 0)]
          ring_nf
  have hm : ((roundInt (q * (2:ℚ)^(52 - floorLog2 q)) : ℤ) : ℚ) ≤ (2:ℚ)^(53:ℤ) := by
    have hfl : (⌊q * (2:ℚ)^(52 - floorLog2 q)⌋ : ℚ) + 1 ≤ (2:ℚ)^(53:ℤ) := by
      have h53 : ((2^53 : ℤ) : ℚ) = (2:ℚ)^(53:ℤ) := by norm_num
      have hzf : ⌊q * (2:ℚ)^(52 - floorLog2 q)⌋ + 1 ≤ (2^53 : ℤ) := by
        have := Int.floor_le (q * (2:ℚ)^(52 - floorLog2 q))
        have hlt : (⌊q * (2:ℚ)^(52 - floorLog2 q)⌋ : ℚ) < (2:ℚ)^(53:ℤ) :=
          lt_of_le_of_lt this hx
        rw [← h53] at hlt
        exact_mod_cast hlt
      rw [← h53]
      exact_mod_cast hzf
    refine le_trans ?_ hfl
    have := roundInt_le_floor_add_one (q * (2:ℚ)^(52 - floorLog2 q))
    exact_mod_cast this
  calc (roundInt (q * (2:ℚ)^(52 - floorLog2 q)) : ℚ) * (2:ℚ)^(floorLog2 q - 52)
      ≤ (2:ℚ)^(53:ℤ) * (2:ℚ)^(floorLog2 q - 52) := by
        exact mul_le_mul_of_nonneg_right hm (zpow_pos (by norm_num : (0:ℚ) < 2) _).le
    _ = (2:ℚ)^(floorLog2 q + 1) := by
        rw [← zpow_add₀ (by norm_num : (2:ℚ) ≠ 0)]
        ring_nf

theorem roundInt_mono (x y : ℚ) (hxy : x ≤ y) : roundInt x ≤ roundInt y := by
  have hfl : ⌊x⌋ ≤ ⌊y⌋ := Int.floor_le_floor hxy
  rcases lt_or_eq_of_le hfl with h | h
  · calc roundInt x ≤ ⌊x⌋ + 1 := roundInt_le_floor_add_one x
      _ ≤ ⌊y⌋ := by omega
      _ ≤ roundInt y := roundInt_ge_floor y
  · have hfx : x - ⌊x⌋ ≤ y - ⌊y⌋ := by
      have : ((⌊x⌋ : ℤ) : ℚ) = ((⌊y⌋ : ℤ) : ℚ) := by exact_mod_cast h
      linarith [this]
    rw [roundInt, roundInt, ← h]
    split_ifs with a1 a2 a3 b1 b2 b3 <;> first
      | omega
      | (exfalso; linarith)

theorem roundPos_mono (x y : ℚ) (hx : 0 < x) (hxy : x ≤ y) :
    roundPos x ≤ roundPos y := by
  have hy : 0 < y := lt_of_lt_of_le hx hxy
  have hE : floorLog2 x ≤ floorLog2 y := floorLog2_mono x y hx hxy
  rcases lt_or_eq_of_le hE with h | h
  · calc roundPos x ≤ (2:ℚ)^(floorLog2 x + 1) := roundPos_upper x hx
      _ ≤ (2:ℚ)^(floorLog2 y) := zpow_le_zpow_right₀ (by norm_num) (by omega)
      _ ≤ roundPos y := roundPos_lower y hy
  · rw [roundPos, roundPos, ← h]
    have hscaled : x * (2:ℚ)^(52 - floorLog2 x) ≤ y * (2:ℚ)^(52 - floorLog2 x) := by
      exact mul_le_mul_of_nonneg_right hxy (zpow_pos (by norm_num : (0:ℚ) < 2) _).le
    have hri : roundInt (x * (2:ℚ)^(52 - floorLog2 x)) ≤
        roundInt (y * (2:ℚ)^(52 - floorLog2 x)) := roundInt_mono _ _ hscaled
    exact mul_le_mul_of_nonneg_right (by exact_mod_cast hri)
      (zpow_pos (by norm_num : (0:ℚ) < 2) _).le

theorem roundPos_pos (q : ℚ) (hq : 0 < q) : 0 < roundPos q :=
  lt_of_lt_of_le (zpow_pos (by norm_num) _) (roundPos_lower q hq)

theorem roundDouble_mono (x y : ℚ) (hxy : x ≤ y) :
    roundDouble x ≤ roundDouble y := by
  rcases lt_trichotomy x 0 with hx | hx | hx
  · rw [roundDouble, if_neg (ne_of_lt hx), if_pos hx]
    rcases lt_trichotomy y 0 with hy | hy | hy
    · rw [roundDouble, if_neg (ne_of_lt hy), if_pos hy, neg_le_neg_iff]
      exact roundPos_mono (-y) (-x) (by linarith) (by linarith)
    · rw [hy, roundDouble, if_pos rfl]
      have := roundPos_pos (-x) (by linarith)
      linarith
    · rw [roundDouble, if_neg (ne_of_gt hy), if_neg (not_lt.mpr hy.le)]
      have h1 := roundPos_pos (-x) (by linarith)
      have h2 := roundPos_pos y hy
      linarith
  · subst hx
    rw [roundDouble, if_pos rfl]
    rcases lt_or_eq_of_le hxy with hy | hy
    · rw [roundDouble, if_neg (ne_of_gt hy), if_neg (not_lt.mpr hy.le)]
      exact (roundPos_pos y hy).le
    · rw [← hy, roundDouble, if_pos rfl]
  · have hy : 0 < y := lt_of_lt_of_le hx hxy
    rw [roundDouble, if_neg (ne_of_gt hx), if_neg (not_lt.mpr hx.le),
      roundDouble, if_neg (ne_of_gt hy), if_neg (not_lt.mpr hy.le)]
    exact roundPos_mono x y hx hxy

/-- A binary64 value in [1/2, 1) is an integer multiple of 2^-53. -/
theorem isDouble_mantissa (c : ℚ) (hd : IsDouble c)
    (h1 : 1/2 ≤ c) (h2 : c < 1) : ∃ m : ℤ, c = (m : ℚ) / 2^53 := by
  have hc : 0 < c := lt_of_lt_of_le (by norm_num) h1
  have hE : floorLog2 c = -1 := by
    apply floorLog2_unique
    · norm_num
      linarith
    · norm_num
      exact h2
  rw [IsDouble, roundDouble, if_neg (ne_of_gt hc), if_neg (not_lt.mpr hc.le),
    roundPos, hE] at hd
  obtain ⟨m, hm⟩ : ∃ m : ℤ, ((m:ℚ) * (2:ℚ)^((-1:ℤ) - 52) = c) := ⟨_, hd⟩
  refine ⟨m, ?_⟩
  rw [← hm]
  norm_num
  ring

/-! Exact binary64 values of the source's float literals, and of the float
operations the claims evaluate. Each is certified against `roundDouble`
through `roundDouble_eq` (strictly-nearest case) or `roundDouble_eq_tie`
(exact-halfway case, mantissa tied to even). -/

theorem pyLit_d045 : pyLit 0.45 = 8106479329266893 / 2^54 := by
  have h := roundDouble_eq 0.45 8106479329266893 (-2)
    (by norm_num) (by norm_num) (by norm_num) (by norm_num)
  rw [pyLit, h]
  norm_num

theorem pyLit_d08 : pyLit 0.8 = 7205759403792794 / 2^53 := by
  have h := roundDouble_eq 0.8 7205759403792794 (-1)
    (by norm_num) (by norm_num) (by norm_num) (by norm_num)
  rw [pyLit, h]
  norm_num

theorem pyLit_d07 : pyLit 0.7 = 6305039478318694 / 2^53 := by
  have h := roundDouble_eq 0.7 6305039478318694 (-1)
    (by norm_num) (by norm_num) (by norm_num) (by norm_num)
  rw [pyLit, h]
  norm_num

theorem pyLit_d06 : pyLit 0.6 = 5404319552844595 / 2^53 := by
  have h := roundDouble_eq 0.6 5404319552844595 (-1)
    (by norm_num) (by norm_num) (by norm_num) (by norm_num)
  rw [pyLit, h]
  norm_num

theorem pyLit_d055 : pyLit 0.55 = 4953959590107546 / 2^53 := by
  have h := roundDouble_eq 0.55 4953959590107546 (-1)
    (by norm_num) (by norm_num) (by norm_num) (by norm_num)
  rw [pyLit, h]
  norm_num

theorem pyLit_d03 : pyLit 0.3 = 5404319552844595 / 2^54 := by
  have h := roundDouble_eq 0.3 5404319552844595 (-2)
    (by norm_num) (by norm_num) (by norm_num) (by norm_num)
  rw [pyLit, h]
  norm_num

theorem pyLit_d04 : pyLit 0.4 = 7205759403792794 / 2^54 := by
  have h := roundDouble_eq 0.4 7205759403792794 (-2)
    (by norm_num) (by norm_num) (by norm_num) (by norm_num)
  rw [pyLit, h]
  norm_num

theorem pyLit_d015 : pyLit 0.15 = 5404319552844595 / 2^55 := by
  have h := roundDouble_eq 0.15 5404319552844595 (-3)
    (by norm_num) (by norm_num) (by norm_num) (by norm_num)
  rw [pyLit, h]
  norm_num

theorem pyLit_d085 : pyLit 0.85 = 7656119366529843 / 2^53 := by
  have h := roundDouble_eq 0.85 7656119366529843 (-1)
    (by norm_num) (by norm_num) (by norm_num) (by norm_num)
  rw [pyLit, h]
  norm_num

theorem pyLit_d01 : pyLit 0.1 = 7205759403792794 / 2^56 := by
  have h := roundDouble_eq 0.1 7205759403792794 (-4)
    (by norm_num) (by norm_num) (by norm_num) (by norm_num)
  rw [pyLit, h]
  norm_num

theorem pyLit_d036 : pyLit 0.36 = 6485183463413514 / 2^54 := by
  have h := roundDouble_eq 0.36 6485183463413514 (-2)
    (by norm_num) (by norm_num) (by norm_num) (by norm_num)
  rw [pyLit, h]
  norm_num

theorem pyLit_d042 : pyLit 0.42 = 7566047373982433 / 2^54 := by
  have h := roundDouble_eq 0.42 7566047373982433 (-2)
    (by norm_num) (by norm_num) (by norm_num) (by norm_num)
  rw [pyLit, h]
  norm_num

theorem pyLit_d022 : pyLit 0.22 = 7926335344172073 / 2^55 := by
  have h := roundDouble_eq 0.22 7926335344172073 (-3)
    (by norm_num) (by norm_num) (by norm_num) (by norm_num)
  rw [pyLit, h]
  norm_num

theorem pyLit_d09 : pyLit 0.9 = 8106479329266893 / 2^53 := by
  have h := roundDouble_eq 0.9 8106479329266893 (-1)
    (by norm_num) (by norm_num) (by norm_num) (by norm_num)
  rw [pyLit, h]
  norm_num

theorem pySub_one_d045 :
    pySub 1 (8106479329266893 / 2^54) = 4953959590107546 / 2^53 := by
  have h := roundDouble_eq_tie ((1:ℚ) - 8106479329266893 / 2^54)
    4953959590107546 (-1) (by norm_num) (by norm_num) (by norm_num) (by norm_num)
  rw [pySub, h]
  norm_num

theorem pySub_one_d055 :
    pySub 1 (4953959590107546 / 2^53) = 8106479329266892 / 2^54 := by
  have h := roundDouble_eq ((1:ℚ) - 4953959590107546 / 2^53)
    8106479329266892 (-2) (by norm_num) (by norm_num) (by norm_num) (by norm_num)
  rw [pySub, h]
  norm_num

theorem pyMul_d08_x :
    pyMul (7205759403792794 / 2^53) (8106479329266892 / 2^54) =
      6485183463413514 / 2^54 := by
  have h := roundDouble_eq ((7205759403792794:ℚ) / 2^53 * (8106479329266892 / 2^54))
    6485183463413514 (-2) (by norm_num) (by norm_num) (by norm_num) (by norm_num)
  rw [pyMul, h]
  norm_num

theorem pyMul_d07_d06 :
    pyMul (6305039478318694 / 2^53) (5404319552844595 / 2^53) =
      7566047373982433 / 2^54 := by
  have h := roundDouble_eq ((6305039478318694:ℚ) / 2^53 * (5404319552844595 / 2^53))
    7566047373982433 (-2) (by norm_num) (by norm_num) (by norm_num) (by norm_num)
  rw [pyMul, h]
  norm_num

theorem pySub_one_d06 :
    pySub 1 (5404319552844595 / 2^53) = 7205759403792794 / 2^54 := by
  have h := roundDouble_eq ((1:ℚ) - 5404319552844595 / 2^53)
    7205759403792794 (-2) (by norm_num) (by norm_num) (by norm_num) (by norm_num)
  rw [pySub, h]
  norm_num

theorem pyMul_d055_d04 :
    pyMul (4953959590107546 / 2^53) (7205759403792794 / 2^54) =
      7926335344172074 / 2^55 := by
  have h := roundDouble_eq ((4953959590107546:ℚ) / 2^53 * (7205759403792794 / 2^54))
    7926335344172074 (-3) (by norm_num) (by norm_num) (by norm_num) (by norm_num)
  rw [pyMul, h]
  norm_num

theorem pyAdd_d055_d03 :
    pyAdd (4953959590107546 / 2^53) (5404319552844595 / 2^54) =
      7656119366529844 / 2^53 := by
  have h := roundDouble_eq_tie ((4953959590107546:ℚ) / 2^53 + 5404319552844595 / 2^54)
    7656119366529844 (-1) (by norm_num) (by norm_num) (by norm_num) (by norm_num)
  rw [pyAdd, h]
  norm_num

theorem pyAdd_d01_d03 :
    pyAdd (7205759403792794 / 2^56) (5404319552844595 / 2^54) =
      7205759403792794 / 2^54 := by
  have h := roundDouble_eq_tie ((7205759403792794:ℚ) / 2^56 + 5404319552844595 / 2^54)
    7205759403792794 (-2) (by norm_num) (by norm_num) (by norm_num) (by norm_num)
  rw [pyAdd, h]
  norm_num

theorem pySub_d055_d04 :
    pySub (4953959590107546 / 2^53) (7205759403792794 / 2^54) =
      5404319552844596 / 2^55 := by
  have h := roundDouble_eq ((4953959590107546:ℚ) / 2^53 - 7205759403792794 / 2^54)
    5404319552844596 (-3) (by norm_num) (by norm_num) (by norm_num) (by norm_num)
  rw [pySub, h]
  norm_num

theorem roundDouble_pred55_sub_d04 :
    roundDouble ((4953959590107545:ℚ) / 2^53 - 7205759403792794 / 2^54) =
      5404319552844592 / 2^55 := by
  have h := roundDouble_eq ((4953959590107545:ℚ) / 2^53 - 7205759403792794 / 2^54)
    5404319552844592 (-3) (by norm_num) (by norm_num) (by norm_num) (by norm_num)
  rw [h]
  norm_num

theorem roundDouble_half_sub_d04 :
    roundDouble ((1:ℚ) / 2 - 7205759403792794 / 2^54) =
      7205759403792792 / 2^56 := by
  have h := roundDouble_eq ((1:ℚ) / 2 - 7205759403792794 / 2^54)
    7205759403792792 (-4) (by norm_num) (by norm_num) (by norm_num) (by norm_num)
  rw [h]
  norm_num

/-- `core/awareness/state.py` `AwarenessState`: the awareness record threading
through the pipeline. The `timestamp` field (wall-clock `time.time()`) carries
no pipeline logic and is omitted from the embedding. -/
structure AwarenessState where
  field : FieldMap
  coherence : ℚ
  uncertainty : ℚ
  deriving Repr, DecidableEq

instance : Inhabited AwarenessState := ⟨⟨[], 0, 0⟩⟩

namespace AwarenessField

/-- `core/awareness/field.py` `AwarenessField.generate`, with each float
operation correctly rounded (`pySub`/`pyMul`). The literals `1.0` and
`0.0` are exactly representable, so they appear as the exact rationals
`1` and `0`. -/
def generate (input_state : FieldMap) (memory : FieldMap) : AwarenessState :=
  let coherence := input_state.getD "coherence" 1
  let uncertainty := pySub 1 (input_state.getD "confidence" 1)
  { field :=
      [("novelty", pyMul (input_state.getD "novelty" 0) (pySub 1 uncertainty)),
       ("complexity", pyMul (input_state.getD "complexity" 0) coherence),
       ("risk", pyMul uncertainty (pySub 1 coherence)),
       ("memory_pressure", memory.getD "coherence" 0)],
    coherence := coherence,
    uncertainty := uncertainty }

end AwarenessField

namespace AwarenessRecursion

/-- `core/awareness/recursion.py` `AwarenessRecursion.reflect`: stamps
`field["drift"]` from the last history entry (0.0 on empty history). -/
def reflect (state : AwarenessState) (history : List AwarenessState) :
    AwarenessState :=
  match history.getLast? with
  | some prev =>
      { state with field := state.field.set "drift" |state.coherence - prev.coherence| }
  | none => { state with field := state.field.set "drift" 0.0 }

end AwarenessRecursion

namespace AwarenessDynamics

/-- `core/awareness/dynamics.py` `AwarenessDynamics.regulate`. -/
def regulate (state : AwarenessState) (memory : FieldMap) : AwarenessState :=
  { state with
      field := state.field.set "stability" (state.coherence - memory.getD "coherence" 0.0) }

end AwarenessDynamics

namespace Invariants

def MAX_UNCERTAINTY : ℚ := 0.85
def MAX_DEPTH : ℤ := 5
def MIN_COHERENCE : ℚ := 0.15
def MAX_AGENTS : ℤ := 20

end Invariants

/-- `core/governance/invariants.py` `Invariants`: the process-wide population
counter (a Python `int`, hence `ℤ`). -/
structure Invariants where
  active_agents : ℤ
  deriving Repr, DecidableEq

namespace Invariants

/-- `Invariants.enforce`: first failing check raises, in source order
uncertainty, depth, coherence, population; `.ok ()` is a silent return. -/
def enforce (inv : Invariants) (awareness : AwarenessState) (depth : ℤ) :
    Except String Unit :=
  if awareness.uncertainty > MAX_UNCERTAINTY then
    .error "uncertainty_exceeded"
  else if depth > MAX_DEPTH then
    .error "recursion_exceeded"
  else if awareness.coherence < MIN_COHERENCE then
    .error "coherence_collapsed"
  else if inv.active_agents ≥ MAX_AGENTS then
    .error "agent_population_exceeded"
  else
    .ok ()

/-- `Invariants.register_spawn`: increments the counter, and if that pushes it
over `MAX_AGENTS`, rolls the increment back and raises. Returns the resulting
state together with the raised message (`none` = no exception). -/
def register_spawn (inv : Invariants) : Invariants × Option String :=
  let incremented := inv.active_agents + 1
  if incremented > MAX_AGENTS then
    ({ active_agents := incremented - 1 }, some "agent_population_exceeded")
  else
    ({ active_agents := incremented }, none)

/-- `Invariants.register_dissolution`: decrement floored at 0. -/
def register_dissolution (inv : Invariants) : Invariants :=
  { active_agents := max 0 (inv.active_agents - 1) }

end Invariants

/-- One call against the population counter, for reasoning about arbitrary
call sequences. -/
inductive PopOp where
  | spawn
  | dissolve
  deriving Repr, DecidableEq

def Invariants.applyOp (inv : Invariants) : PopOp → Invariants
  | .spawn => (inv.register_spawn).1
  | .dissolve => inv.register_dissolution

def Invariants.runOps (inv : Invariants) : List PopOp → Invariants
  | [] => inv
  | op :: rest => (inv.applyOp op).runOps rest

/-- `register_spawn` immediately followed by `register_dissolution`, as a
state transformer. -/
def Invariants.spawnThenDissolve (inv : Invariants) : Invariants :=
  (inv.register_spawn).1.register_dissolution

namespace Ethics

/-- `core/governance/ethics.py` `Ethics.validate`: returns `True` or raises
an `EthicsViolation` message. -/
def validate (awareness : AwarenessState) : Except String Bool :=
  if awareness.coherence ≤ 0.0 then
    .error "action_from_zero_coherence"
  else if awareness.uncertainty ≥ 1.0 then
    .error "action_from_total_uncertainty"
  else if awareness.field.getD "risk" 0.0 > 0.9 ∧ awareness.field.getD "stability" 1.0 < 0.1 then
    .error "unstable_high_risk_action"
  else
    .ok true

end Ethics

/-- `core/llm/config.py` `LLMConfig`. -/
structure LLMConfig where
  provider : String
  api_key : String
  model : String
  deriving Repr, DecidableEq

def LLMConfig.enabled (c : LLMConfig) : Bool := c.provider ≠ "none"

/-- Outcome of one transport attempt (the `curl` subprocess plus JSON
decode inside a provider method's `try` block): `.error` is any exception
raised inside the `try`, `.ok s` is the extracted response text. -/
abbrev TransportResult := Except Unit String

namespace LLMAdapter

/-- `core/llm/adapter.py` `LLMAdapter._ollama`: the `except Exception`
handler returns the fixed marker string. -/
def ollamaComplete (transport : TransportResult) : String :=
  match transport with
  | .ok response => response
  | .error _ => "[ollama unavailable]"

/-- `core/llm/adapter.py` `LLMAdapter._anthropic`. -/
def anthropicComplete (transport : TransportResult) : String :=
  match transport with
  | .ok response => response
  | .error _ => "[anthropic unavailable]"

/-- `core/llm/adapter.py` `LLMAdapter._openai`. -/
def openaiComplete (transport : TransportResult) : String :=
  match transport with
  | .ok response => response
  | .error _ => "[openai unavailable]"

/-- `core/llm/adapter.py` `LLMAdapter.complete`: provider dispatch. The
transport outcome is passed in explicitly since the embedding has no
subprocesses. -/
def complete (config : LLMConfig) (transport : TransportResult) : String :=
  if ¬ config.enabled then ""
  else if config.provider = "ollama" then ollamaComplete transport
  else if config.provider = "anthropic" then anthropicComplete transport
  else if config.provider = "openai" then openaiComplete transport
  else ""

end LLMAdapter

/-- `core/emergence/agent.py` `EmergentAgent`. `awareness` is `Option`al
because `dissolve` sets it to Python `None`. -/
structure EmergentAgent where
  awareness : Option AwarenessState
  llm : Option LLMConfig
  alive : Bool
  deriving Repr, DecidableEq

/-- Return value of `EmergentAgent.act`: `llm_response` is present exactly
when the backend branch ran. -/
structure ActOutput where
  awareness_field : FieldMap
  context_keys : List String
  llm_response : Option String
  deriving Repr, DecidableEq

namespace EmergentAgent

/-- `EmergentAgent.act` on a live agent (with `self.awareness = a`): builds
the output mapping, adding `llm_response` when an enabled backend is
attached. -/
def act (a : AwarenessState) (llm : Option LLMConfig)
    (transport : TransportResult) (context : FieldMap) : ActOutput :=
  match llm with
  | some config =>
      if config.enabled then
        { awareness_field := a.field,
          context_keys := context.map (·.1),
          llm_response := some (LLMAdapter.complete config transport) }
      else
        { awareness_field := a.field,
          context_keys := context.map (·.1),
          llm_response := none }
  | none =>
      { awareness_field := a.field,
        context_keys := context.map (·.1),
        llm_response := none }

end EmergentAgent

/-- Residue captured by `EmergentAgent.dissolve` (`final_field` is the
`dict(...)` copy, by value). -/
structure Residue where
  final_coherence : ℚ
  final_uncertainty : ℚ
  final_field : FieldMap
  deriving Repr, DecidableEq

namespace EmergentAgent

/-- `core/emergence/agent.py` `EmergentAgent.dissolve`: reads
`self.awareness.coherence` etc., so on an agent whose `awareness` was
already cleared to `None` it raises `AttributeError` (embedded as `none`);
otherwise it clears `alive` and `awareness` and returns the residue. -/
def dissolve (agent : EmergentAgent) : Option (EmergentAgent × Residue) :=
  match agent.awareness with
  | none => none
  | some a =>
      some ({ awareness := none, llm := agent.llm, alive := false },
            { final_coherence := a.coherence,
              final_uncertainty := a.uncertainty,
              final_field := a.field })

end EmergentAgent

namespace AgentGeneration

/-- `core/emergence/generation.py` `AgentGeneration.spawn`: creates an agent
bound to the record (the spawned-list append is bookkeeping on the
generator, not on the agent). -/
def spawn (awareness : AwarenessState) (llm : Option LLMConfig) :
    EmergentAgent :=
  { awareness := some awareness, llm := llm, alive := true }

end AgentGeneration

/-! ### Heap model for the dissolution residue copy

`EmergentAgent.dissolve` builds `final_field` with `dict(self.awareness.field)`,
a fresh mapping. To state the non-aliasing consequence we model the Python
heap of field dictionaries explicitly: a store of cells, records and residues
holding cell indices, and `dict(...)` as allocation of a fresh cell. -/

/-- The heap of field dictionaries. -/
structure Store where
  cells : List FieldMap
  deriving Repr, DecidableEq

def Store.read (s : Store) (r : ℕ) : FieldMap := s.cells.getD r []

def Store.write (s : Store) (r : ℕ) (f : FieldMap) : Store :=
  ⟨s.cells.set r f⟩

/-- `dict(...)`: allocate a fresh cell holding a copy of the contents. -/
def Store.alloc (s : Store) (f : FieldMap) : Store × ℕ :=
  (⟨s.cells ++ [f]⟩, s.cells.length)

/-- An awareness record whose `field` lives in the store. -/
structure RecordRef where
  fieldRef : ℕ
  coherence : ℚ
  uncertainty : ℚ
  deriving Repr, DecidableEq

/-- A residue whose `final_field` lives in the store. -/
structure ResidueRef where
  final_coherence : ℚ
  final_uncertainty : ℚ
  final_field : ℕ
  deriving Repr, DecidableEq

/-- `EmergentAgent.dissolve` at heap level, applied to an agent bound to
record `r`: `final_field := dict(self.awareness.field)` allocates a fresh
cell with a copy of `r`'s field contents. -/
def dissolveHeap (s : Store) (r : RecordRef) : Store × ResidueRef :=
  let allocated := s.alloc (s.read r.fieldRef)
  (allocated.1,
   { final_coherence := r.coherence,
     final_uncertainty := r.uncertainty,
     final_field := allocated.2 })

namespace Counterfactual

/-- One hypothetical scenario from `Counterfactual.explore`, with the
`would_violate_invariant` tag stamped by the trailing loop. -/
structure Scenario where
  coherence : ℚ
  uncertainty : ℚ
  risk_delta : ℚ
  would_violate_invariant : Bool
  deriving Repr, DecidableEq

/-- The three-scenario mapping returned by `Counterfactual.explore`. -/
structure Scenarios where
  higher_coherence : Scenario
  lower_uncertainty : Scenario
  coherence_collapse : Scenario
  deriving Repr, DecidableEq

/-- The tag computed by `explore`'s trailing loop: strict comparisons of a
scenario's float values against the float literals `0.85` / `0.15`. -/
def violationTag (uncertainty coherence : ℚ) : Bool :=
  decide (uncertainty > pyLit 0.85 ∨ coherence < pyLit 0.15)

/-- `core/audit/counterfactual.py` `Counterfactual.explore`, with each
float operation correctly rounded. Python's `min`/`max` compare and return
an argument, so they are exact; the literals `1.0`, `0.0` and `0.5` are
exactly representable. -/
def explore (awareness : AwarenessState) : Scenarios :=
  let base_coherence := awareness.coherence
  let base_uncertainty := awareness.uncertainty
  let base_risk := awareness.field.getD "risk" 0
  let hc_coherence := min 1 (pyAdd base_coherence (pyLit 0.2))
  let lu_uncertainty := max 0 (pySub base_uncertainty (pyLit 0.2))
  let cc_coherence := max 0 (pySub base_coherence (pyLit 0.4))
  let cc_uncertainty := min 1 (pyAdd base_uncertainty (pyLit 0.3))
  { higher_coherence :=
      { coherence := hc_coherence, uncertainty := base_uncertainty,
        risk_delta := pyMul (-(pyLit 0.2)) base_risk,
        would_violate_invariant := violationTag base_uncertainty hc_coherence },
    lower_uncertainty :=
      { coherence := base_coherence, uncertainty := lu_uncertainty,
        risk_delta := pyMul (-(pyLit 0.15)) base_risk,
        would_violate_invariant := violationTag lu_uncertainty base_coherence },
    coherence_collapse :=
      { coherence := cc_coherence, uncertainty := cc_uncertainty,
        risk_delta := 0.5,
        would_violate_invariant := violationTag cc_uncertainty cc_coherence } }

end Counterfactual

/-- Python `round(x, 4)`: round to 4 decimal places, ties to even
(banker's rounding). -/
def pyRound4 (q : ℚ) : ℚ :=
  let scaled := q * 10000
  let fl := ⌊scaled⌋
  let frac := scaled - fl
  let n : ℤ :=
    if frac < 1/2 then fl
    else if frac > 1/2 then fl + 1
    else if fl % 2 = 0 then fl else fl + 1
  (n : ℚ) / 10000

namespace Continuity

/-- Result mapping returned by `Continuity.assess`. -/
structure AssessResult where
  length : ℕ
  continuous : Bool
  average_coherence : ℚ
  coherence_trend : String
  drift_events : ℕ
  deriving Repr, DecidableEq

/-- `core/audit/continuity.py` `Continuity.assess`. -/
def assess : List AwarenessState → AssessResult
  | [] =>
      { length := 0, continuous := false, average_coherence := 0.0,
        coherence_trend := "none", drift_events := 0 }
  | hd :: tl =>
      let history := hd :: tl
      let coherences := history.map (·.coherence)
      let avg_coherence := coherences.sum / (coherences.length : ℚ)
      let drift_events := tl.countP (fun s => decide (s.field.getD "drift" 0.0 > 0.2))
      let trend :=
        if 2 ≤ coherences.length then
          if coherences.getLastD 0 > coherences.headD 0 then "improving"
          else if coherences.getLastD 0 < coherences.headD 0 then "degrading"
          else "stable"
        else "insufficient_data"
      { length := history.length,
        continuous := drift_events == 0,
        average_coherence := pyRound4 avg_coherence,
        coherence_trend := trend,
        drift_events := drift_events }

/-- Spec-side restatement of the trend rule, written from the spec's words:
"none if empty, insufficient_data if length<2, else compare last vs first
coherence". Used only to compare against `assess`. -/
def coherenceTrendSpec (history : List AwarenessState) : String :=
  if history.length = 0 then "none"
  else if history.length < 2 then "insufficient_data"
  else if (history.getLastD default).coherence > (history.headD default).coherence then
    "improving"
  else if (history.getLastD default).coherence < (history.headD default).coherence then
    "degrading"
  else "stable"

/-- Spec-side restatement of the drift-event count: "count of entries (from
index 1 onward) whose field.drift > 0.2". -/
def driftEventsSpec (history : List AwarenessState) : ℕ :=
  (history.drop 1).countP (fun s => decide (s.field.getD "drift" 0.0 > 0.2))

end Continuity

/-- One memory snapshot (`core/knowledge/memory.py`); wall-clock
`timestamp` omitted. -/
structure MemSnapshot where
  coherence : ℚ
  uncertainty : ℚ
  field : FieldMap
  deriving Repr, DecidableEq

/-- `core/knowledge/memory.py` `Memory`: latest-state mapping plus the
snapshot list. The `state` keys `"coherence"`/`"uncertainty"` live in the
numeric mapping; `state["field"]` is held separately since its value is a
mapping, not a number; `last_updated` (wall clock) is omitted. -/
structure Memory where
  state : FieldMap
  state_field : Option FieldMap
  snapshots : List MemSnapshot
  deriving Repr, DecidableEq

namespace Memory

/-- `Memory.update`. -/
def update (m : Memory) (awareness : AwarenessState) : Memory :=
  { state := ((m.state.set "coherence" awareness.coherence).set
      "uncertainty" awareness.uncertainty),
    state_field := some awareness.field,
    snapshots := m.snapshots ++
      [{ coherence := awareness.coherence,
         uncertainty := awareness.uncertainty,
         field := awareness.field }] }

end Memory

namespace Feedback

/-- `core/knowledge/feedback.py` `Feedback.apply`: mutates the memory
mapping key by key, in source order, each read seeing the previous writes. -/
def apply (memory : FieldMap) (awareness : AwarenessState) : FieldMap :=
  let m1 := memory.set "feedback" awareness.coherence
  let m2 := m1.set "feedback_delta"
    (awareness.coherence - m1.getD "coherence" awareness.coherence)
  let m3 := m2.set "feedback_drift" (awareness.field.getD "drift" 0.0)
  m3.set "feedback_stability" (awareness.field.getD "stability" 0.0)

/-- `Feedback.is_positive`. -/
def is_positive (memory : FieldMap) : Bool :=
  decide (memory.getD "feedback_delta" 0.0 ≥ 0.0)

/-- `Feedback.requires_correction`. -/
def requires_correction (memory : FieldMap) : Bool :=
  decide (memory.getD "feedback_delta" 0.0 < -0.2) ||
    decide (memory.getD "feedback_drift" 0.0 > 0.3)

end Feedback

/-! ## Helper lemmas -/

theorem Store.read_alloc_fresh (s : Store) (f : FieldMap) :
    (s.alloc f).1.read (s.alloc f).2 = f := by
  simp [Store.alloc, Store.read, List.getD_eq_getElem?_getD]

theorem Store.read_alloc_old (s : Store) (f : FieldMap) (i : ℕ)
    (h : i < s.cells.length) : (s.alloc f).1.read i = s.read i := by
  simp [Store.alloc, Store.read, List.getD_eq_getElem?_getD,
    List.getElem?_append_left h]

theorem Store.read_write_ne (s : Store) (i j : ℕ) (f : FieldMap)
    (h : j ≠ i) : (s.write i f).read j = s.read j := by
  simp [Store.write, Store.read, List.getD_eq_getElem?_getD,
    List.getElem?_set_ne h.symm]

theorem Invariants.applyOp_bounds (inv : Invariants) (op : PopOp)
    (h0 : 0 ≤ inv.active_agents) (h1 : inv.active_agents ≤ 20) :
    0 ≤ (inv.applyOp op).active_agents ∧ (inv.applyOp op).active_agents ≤ 20 := by
  cases op with
  | spawn =>
      simp only [Invariants.applyOp, Invariants.register_spawn, Invariants.MAX_AGENTS]
      split <;> dsimp only <;> constructor <;> omega
  | dissolve =>
      simp only [Invariants.applyOp, Invariants.register_dissolution]
      omega

theorem Invariants.runOps_bounds (ops : List PopOp) :
    ∀ inv : Invariants, 0 ≤ inv.active_agents → inv.active_agents ≤ 20 →
      0 ≤ (inv.runOps ops).active_agents ∧ (inv.runOps ops).active_agents ≤ 20 := by
  induction ops with
  | nil => intro inv h0 h1; exact ⟨h0, h1⟩
  | cons op rest ih =>
      intro inv h0 h1
      obtain ⟨g0, g1⟩ := inv.applyOp_bounds op h0 h1
      exact ih (inv.applyOp op) g0 g1

theorem Invariants.spawnThenDissolve_id (inv : Invariants)
    (h0 : 0 ≤ inv.active_agents) (hs : (inv.register_spawn).2 = none) :
    inv.spawnThenDissolve = inv := by
  obtain ⟨a⟩ := inv
  simp only [Invariants.spawnThenDissolve, Invariants.register_spawn,
    Invariants.MAX_AGENTS] at *
  by_cases h : a + 1 > 20
  · simp [h] at hs
  · simp only [if_neg h]
    simp only [Invariants.register_dissolution]
    simp only [Invariants.mk.injEq]
    omega

/-! ## Claims -/

/-- C1: for every record with coherence, uncertainty in [0,1] and every
depth, `Invariants.enforce` accepts (returns without raising) iff
uncertainty ≤ 0.85 ∧ coherence ≥ 0.15 ∧ depth ≤ 5 ∧ active_agents < 20;
when it rejects, the `InvariantViolation` names the first violated rule in
the order uncertainty, depth, coherence, population. -/
theorem C1_enforce_gate (inv : Invariants) (a : AwarenessState) (depth : ℤ)
    (hc0 : 0 ≤ a.coherence) (hc1 : a.coherence ≤ 1)
    (hu0 : 0 ≤ a.uncertainty) (hu1 : a.uncertainty ≤ 1) :
    (inv.enforce a depth = .ok () ↔
      (a.uncertainty ≤ 0.85 ∧ a.coherence ≥ 0.15 ∧ depth ≤ 5 ∧
        inv.active_agents < 20)) ∧
    (a.uncertainty > 0.85 →
      inv.enforce a depth = .error "uncertainty_exceeded") ∧
    (a.uncertainty ≤ 0.85 → depth > 5 →
      inv.enforce a depth = .error "recursion_exceeded") ∧
    (a.uncertainty ≤ 0.85 → depth ≤ 5 → a.coherence < 0.15 →
      inv.enforce a depth = .error "coherence_collapsed") ∧
    (a.uncertainty ≤ 0.85 → depth ≤ 5 → a.coherence ≥ 0.15 →
      inv.active_agents ≥ 20 →
      inv.enforce a depth = .error "agent_population_exceeded") := by
  have e85 : Invariants.MAX_UNCERTAINTY = 0.85 := rfl
  have e5 : Invariants.MAX_DEPTH = 5 := rfl
  have e15 : Invariants.MIN_COHERENCE = 0.15 := rfl
  have e20 : Invariants.MAX_AGENTS = 20 := rfl
  refine ⟨?_, ?_, ?_, ?_, ?_⟩
  · simp only [Invariants.enforce, e85, e5, e15, e20]
    split_ifs with h1 h2 h3 h4
    · simp only [reduceCtorEq, false_iff]
      rintro ⟨h, -⟩; linarith
    · simp only [reduceCtorEq, false_iff]
      rintro ⟨-, -, h, -⟩; omega
    · simp only [reduceCtorEq, false_iff]
      rintro ⟨-, h, -⟩; linarith
    · simp only [reduceCtorEq, false_iff]
      rintro ⟨-, -, -, h⟩; omega
    · simp only [true_iff]
      exact ⟨le_of_not_lt h1, le_of_not_lt h3, by omega, by omega⟩
  · intro h
    simp [Invariants.enforce, e85, h]
  · intro hu hd
    rw [Invariants.enforce, if_neg (by rw [e85]; exact not_lt.mpr hu),
      if_pos (by rw [e5]; exact hd)]
  · intro hu hd hcoh
    rw [Invariants.enforce, if_neg (by rw [e85]; exact not_lt.mpr hu),
      if_neg (by rw [e5]; exact not_lt.mpr hd),
      if_pos (by rw [e15]; exact hcoh)]
  · intro hu hd hcoh hpop
    rw [Invariants.enforce, if_neg (by rw [e85]; exact not_lt.mpr hu),
      if_neg (by rw [e5]; exact not_lt.mpr hd),
      if_neg (by rw [e15]; exact not_lt.mpr hcoh),
      if_pos (by rw [e20]; exact hpop)]

/-- Witness for C1 at a concrete accepted record and at a concrete
rejection. -/
theorem C1_enforce_gate_witness :
    Invariants.enforce ⟨0⟩ ⟨[], 0.6, 0.55⟩ 0 = .ok () ∧
    Invariants.enforce ⟨0⟩ ⟨[], 0.6, 0.9⟩ 0 = .error "uncertainty_exceeded" := by
  have h1 := C1_enforce_gate ⟨0⟩ ⟨[], 0.6, 0.55⟩ 0
    (by norm_num) (by norm_num) (by norm_num) (by norm_num)
  have h2 := C1_enforce_gate ⟨0⟩ ⟨[], 0.6, 0.9⟩ 0
    (by norm_num) (by norm_num) (by norm_num) (by norm_num)
  exact ⟨h1.1.mpr (by norm_num), h2.2.1 (by norm_num)⟩

/-- C2: along every finite sequence of `register_spawn` /
`register_dissolution` calls from `active_agents = 0`, the counter stays in
[0, 20]; and a successful `register_spawn` immediately followed by
`register_dissolution`, repeated N times, leaves the counter at its
starting value. -/
theorem C2_population_accounting :
    (∀ ops : List PopOp,
      0 ≤ (Invariants.runOps ⟨0⟩ ops).active_agents ∧
      (Invariants.runOps ⟨0⟩ ops).active_agents ≤ 20) ∧
    (∀ (inv : Invariants) (N : ℕ), 0 ≤ inv.active_agents →
      (inv.register_spawn).2 = none →
      Invariants.spawnThenDissolve^[N] inv = inv) := by
  constructor
  · intro ops
    exact Invariants.runOps_bounds ops ⟨0⟩ (by norm_num) (by norm_num)
  · intro inv N h0 hs
    induction N with
    | zero => rfl
    | succ n ih =>
        rw [Function.iterate_succ_apply, inv.spawnThenDissolve_id h0 hs, ih]

/-- Witness for C2 at a concrete op sequence and a concrete
spawn/dissolve repetition. -/
theorem C2_population_accounting_witness :
    (0 ≤ (Invariants.runOps ⟨0⟩ [.spawn, .spawn, .dissolve]).active_agents ∧
      (Invariants.runOps ⟨0⟩ [.spawn, .spawn, .dissolve]).active_agents ≤ 20) ∧
    Invariants.spawnThenDissolve^[3] ⟨5⟩ = ⟨5⟩ := by
  refine ⟨C2_population_accounting.1 [.spawn, .spawn, .dissolve],
    C2_population_accounting.2 ⟨5⟩ 3 (by norm_num) ?_⟩
  rfl

/-- C3: `register_spawn` fails with `"agent_population_exceeded"` iff the
increment would push `active_agents` above `MAX_AGENTS` (equivalently,
for a counter already in range, iff it was already at `MAX_AGENTS`); on
failure the increment is rolled back so the counter is unchanged; on
success the counter is exactly one greater. -/
theorem C3_register_spawn_rollback (inv : Invariants)
    (h0 : 0 ≤ inv.active_agents) (h1 : inv.active_agents ≤ 20) :
    ((inv.register_spawn).2 = some "agent_population_exceeded" ↔
      inv.active_agents + 1 > 20) ∧
    ((inv.register_spawn).2 = some "agent_population_exceeded" ↔
      inv.active_agents = 20) ∧
    ((inv.register_spawn).2 = some "agent_population_exceeded" →
      (inv.register_spawn).1 = inv) ∧
    ((inv.register_spawn).2 = none →
      (inv.register_spawn).1.active_agents = inv.active_agents + 1) := by
  by_cases h : inv.active_agents + 1 > 20
  · have hs : inv.register_spawn =
        ({ active_agents := inv.active_agents + 1 - 1 },
          some "agent_population_exceeded") := by
      simp [Invariants.register_spawn, Invariants.MAX_AGENTS, h]
    rw [hs]
    refine ⟨⟨fun _ => h, fun _ => rfl⟩, ⟨fun _ => by omega, fun _ => rfl⟩, ?_, ?_⟩
    · intro _
      cases inv
      simp only [Invariants.mk.injEq]
      omega
    · intro hn
      simp at hn
  · have hs : inv.register_spawn =
        ({ active_agents := inv.active_agents + 1 }, none) := by
      simp [Invariants.register_spawn, Invariants.MAX_AGENTS, h]
    rw [hs]
    refine ⟨⟨?_, ?_⟩, ⟨?_, ?_⟩, ?_, ?_⟩
    · intro hn; simp at hn
    · intro hc; exact absurd hc h
    · intro hn; simp at hn
    · intro hc; exfalso; omega
    · intro hn; simp at hn
    · intro _; rfl

/-- C4 counterexample: with the ollama backend enabled and the internal
completion call failing, `complete` returns the marker string
`"[ollama unavailable]"`, not the empty string the claim requires. -/
theorem C4_counterexample :
    LLMConfig.enabled ⟨"ollama", "", ""⟩ = true ∧
    LLMAdapter.complete ⟨"ollama", "", ""⟩ (.error ()) = "[ollama unavailable]" ∧
    LLMAdapter.complete ⟨"ollama", "", ""⟩ (.error ()) ≠ "" := by
  refine ⟨by decide, by decide, by decide⟩

/-- C4 (amended): when the backend is enabled with one of the three real
providers and the internal completion call fails, `complete` returns the
fixed non-empty marker string `"[<provider> unavailable]"` — never raising
past the agent boundary — and `act` still completes, embedding that marker
as the `llm_response`. -/
theorem C4_failure_degrades (config : LLMConfig) (transport : TransportResult)
    (a : AwarenessState) (context : FieldMap) (e : Unit)
    (henabled : config.enabled = true)
    (hprovider : config.provider = "ollama" ∨ config.provider = "anthropic" ∨
      config.provider = "openai")
    (hfail : transport = .error e) :
    LLMAdapter.complete config transport =
      "[" ++ config.provider ++ " unavailable]" ∧
    LLMAdapter.complete config transport ≠ "" ∧
    EmergentAgent.act a (some config) transport context =
      { awareness_field := a.field,
        context_keys := context.map (·.1),
        llm_response := some ("[" ++ config.provider ++ " unavailable]") } := by
  subst hfail
  have hc : LLMAdapter.complete config (.error e) =
      "[" ++ config.provider ++ " unavailable]" := by
    rcases hprovider with h | h | h <;>
      simp [LLMAdapter.complete, henabled, h, LLMAdapter.ollamaComplete,
        LLMAdapter.anthropicComplete, LLMAdapter.openaiComplete]
  refine ⟨hc, ?_, ?_⟩
  · rw [hc]
    rcases hprovider with h | h | h <;> simp [h]
  · simp [EmergentAgent.act, henabled, hc]

/-- Witness for C4 (amended) at the concrete ollama configuration. -/
theorem C4_failure_degrades_witness :
    LLMAdapter.complete ⟨"ollama", "", ""⟩ (.error ()) =
      "[" ++ "ollama" ++ " unavailable]" := by
  exact (C4_failure_degrades ⟨"ollama", "", ""⟩ (.error ()) ⟨[], 1, 0⟩ [] ()
    (by decide) (Or.inl rfl) rfl).1

/-- C5 counterexample: at base coherence exactly 0.55 (the binary64 value
of the literal, with low uncertainty 0.1) the claim requires
`would_violate_invariant = True` for the `coherence_collapse` scenario, but
the program computes 0.55 - 0.4 = 0.15000000000000002, which is not below
the 0.15 threshold, and 0.1 + 0.3 = 0.4, which does not exceed 0.85, so
the code tags the scenario `False`. -/
theorem C5_counterexample :
    pyLit 0.55 ≤ pyLit 0.55 ∧
    (Counterfactual.explore
        ⟨[], pyLit 0.55, pyLit 0.1⟩).coherence_collapse.would_violate_invariant
      = false := by
  refine ⟨le_refl _, ?_⟩
  have hcc : pySub (pyLit 0.55) (pyLit 0.4) = 5404319552844596 / 2^55 := by
    rw [pyLit_d055, pyLit_d04]
    exact pySub_d055_d04
  have huu : pyAdd (pyLit 0.1) (pyLit 0.3) = 7205759403792794 / 2^54 := by
    rw [pyLit_d01, pyLit_d03]
    exact pyAdd_d01_d03
  simp only [Counterfactual.explore, Counterfactual.violationTag, hcc, huu]
  rw [decide_eq_false_iff_not]
  push_neg
  constructor
  · rw [pyLit_d085, min_def]
    norm_num
  · rw [pyLit_d015, max_def]
    norm_num

/-- C5 (amended): under the program's binary64 arithmetic, the
`coherence_collapse` scenario is tagged `would_violate_invariant = True`
whenever base uncertainty ≥ 0.55 or base coherence < 0.55 (float values):
at uncertainty exactly 0.55 the rounded sum 0.55 + 0.3 =
0.8500000000000001 exceeds the 0.85 threshold, so the uncertainty side of
the original claim is inclusive as stated; only the coherence boundary is
excluded, since at coherence exactly 0.55 the rounded difference
0.55 - 0.4 = 0.15000000000000002 is not below 0.15 (see the
counterexample). -/
theorem C5_collapse_tag (a : AwarenessState)
    (hcd : IsDouble a.coherence) (hud : IsDouble a.uncertainty)
    (h : pyLit 0.55 ≤ a.uncertainty ∨ a.coherence < pyLit 0.55) :
    (Counterfactual.explore a).coherence_collapse.would_violate_invariant
      = true := by
  simp only [Counterfactual.explore, Counterfactual.violationTag,
    decide_eq_true_eq]
  rcases h with h | h
  · left
    have hsum : pyAdd (pyLit 0.55) (pyLit 0.3) = 7656119366529844 / 2^53 := by
      rw [pyLit_d055, pyLit_d03]
      exact pyAdd_d055_d03
    have hmono : pyAdd (pyLit 0.55) (pyLit 0.3) ≤ pyAdd a.uncertainty (pyLit 0.3) := by
      rw [pyAdd, pyAdd]
      exact roundDouble_mono _ _ (by linarith)
    rw [gt_iff_lt, lt_min_iff, pyLit_d085]
    refine ⟨by norm_num, ?_⟩
    calc (7656119366529843 : ℚ)/2^53 < 7656119366529844/2^53 := by norm_num
      _ = pyAdd (pyLit 0.55) (pyLit 0.3) := hsum.symm
      _ ≤ pyAdd a.uncertainty (pyLit 0.3) := hmono
  · right
    rw [max_lt_iff, pyLit_d015]
    refine ⟨by norm_num, ?_⟩
    rw [pySub, pyLit_d04]
    by_cases hc : 1/2 ≤ a.coherence
    · have hlt1 : a.coherence < 1 := by
        rw [pyLit_d055] at h
        calc a.coherence < (4953959590107546:ℚ)/2^53 := h
          _ < 1 := by norm_num
      obtain ⟨m, hm⟩ := isDouble_mantissa a.coherence hcd hc hlt1
      have hmQ : (m:ℚ) < 4953959590107546 := by
        rw [hm, pyLit_d055] at h
        have h2 : (m:ℚ)/2^53 < (4953959590107546:ℚ)/2^53 := h
        linarith
      have hmZ : m ≤ 4953959590107545 := by
        have : m < 4953959590107546 := by exact_mod_cast hmQ
        omega
      have hcle : a.coherence ≤ (4953959590107545:ℚ)/2^53 := by
        rw [hm]
        have : (m:ℚ) ≤ 4953959590107545 := by exact_mod_cast hmZ
        linarith
      calc roundDouble (a.coherence - 7205759403792794/2^54)
          ≤ roundDouble ((4953959590107545:ℚ)/2^53 - 7205759403792794/2^54) :=
            roundDouble_mono _ _ (by linarith)
        _ = 5404319552844592/2^55 := roundDouble_pred55_sub_d04
        _ < 5404319552844595/2^55 := by norm_num
    · push_neg at hc
      calc roundDouble (a.coherence - 7205759403792794/2^54)
          ≤ roundDouble ((1:ℚ)/2 - 7205759403792794/2^54) :=
            roundDouble_mono _ _ (by linarith)
        _ = 7205759403792792/2^56 := roundDouble_half_sub_d04
        _ < 5404319552844595/2^55 := by norm_num

/-- Witness for C5 (amended) at the concrete float record
(coherence 0.6, uncertainty 0.9). -/
theorem C5_collapse_tag_witness :
    (Counterfactual.explore
        ⟨[], pyLit 0.6, pyLit 0.9⟩).coherence_collapse.would_violate_invariant
      = true := by
  apply C5_collapse_tag
  · show IsDouble (pyLit 0.6)
    rw [IsDouble, pyLit_d06]
    have h := roundDouble_eq ((5404319552844595:ℚ)/2^53) 5404319552844595 (-1)
      (by norm_num) (by norm_num) (by norm_num) (by norm_num)
    rw [h]
    norm_num
  · show IsDouble (pyLit 0.9)
    rw [IsDouble, pyLit_d09]
    have h := roundDouble_eq ((8106479329266893:ℚ)/2^53) 8106479329266893 (-1)
      (by norm_num) (by norm_num) (by norm_num) (by norm_num)
    rw [h]
    norm_num
  · left
    rw [pyLit_d055, pyLit_d09]
    norm_num

/-- The first-cycle observation of the end-to-end scenario: each literal
denotes its binary64 value. -/
def exampleObservation : FieldMap :=
  [("confidence", pyLit 0.45), ("novelty", pyLit 0.8),
   ("complexity", pyLit 0.7), ("coherence", pyLit 0.6)]

/-- The record the pipeline produces from `exampleObservation` against
empty memory and empty history (generate, then reflect, then regulate, in
orchestrator order). -/
def exampleRecord : AwarenessState :=
  AwarenessDynamics.regulate
    (AwarenessRecursion.reflect (AwarenessField.generate exampleObservation []) [])
    []

/-- Full binary64 evaluation of the first pipeline cycle. -/
theorem exampleRecord_eval : exampleRecord =
    { field := [("novelty", 6485183463413514 / 2^54),
                ("complexity", 7566047373982433 / 2^54),
                ("risk", 7926335344172074 / 2^55),
                ("memory_pressure", 0),
                ("drift", 0),
                ("stability", 5404319552844595 / 2^53)],
      coherence := 5404319552844595 / 2^53,
      uncertainty := 4953959590107546 / 2^53 } := by
  have h1 : pySub 1 (pyLit 0.45) = 4953959590107546 / 2^53 := by
    rw [pyLit_d045]
    exact pySub_one_d045
  have h2 : pySub 1 ((4953959590107546:ℚ) / 2^53) = 8106479329266892 / 2^54 :=
    pySub_one_d055
  have h3 : pyMul (pyLit 0.8) ((8106479329266892:ℚ) / 2^54) =
      6485183463413514 / 2^54 := by
    rw [pyLit_d08]
    exact pyMul_d08_x
  have h4 : pyMul (pyLit 0.7) ((5404319552844595:ℚ) / 2^53) =
      7566047373982433 / 2^54 := by
    rw [pyLit_d07]
    exact pyMul_d07_d06
  have h5 : pySub 1 ((5404319552844595:ℚ) / 2^53) = 7205759403792794 / 2^54 :=
    pySub_one_d06
  have h6 : pyMul ((4953959590107546:ℚ) / 2^53) ((7205759403792794:ℚ) / 2^54) =
      7926335344172074 / 2^55 := pyMul_d055_d04
  simp [exampleRecord, exampleObservation, AwarenessField.generate,
    AwarenessRecursion.reflect, AwarenessDynamics.regulate, FieldMap.getD,
    FieldMap.set, FieldMap.lookup_cons, List.getLast?, pyLit_d06,
    h1, h2, h3, h4, h5, h6] <;> norm_num

/-- C6 counterexample: at the claim's concrete input the program's
field.risk is the binary64 result of 0.55 * (1 - 0.6), namely
0.22000000000000003 = 7926335344172074/2^55, which differs both from the
exact rational 0.22 and from the binary64 value of the literal 0.22. -/
theorem C6_risk_not_022 :
    exampleRecord.field.getD "risk" 99 ≠ (0.22 : ℚ) ∧
    exampleRecord.field.getD "risk" 99 ≠ pyLit 0.22 := by
  rw [exampleRecord_eval, pyLit_d022]
  constructor
  · simp [FieldMap.getD, FieldMap.lookup_cons]
    norm_num
  · simp [FieldMap.getD, FieldMap.lookup_cons]
    norm_num

/-- C6 (amended): the single observation {confidence 0.45, novelty 0.8,
complexity 0.7, coherence 0.6} against empty memory and empty history
yields uncertainty = 0.55, field novelty = 0.36, complexity = 0.42,
memory_pressure = 0 and drift = 0 exactly as binary64 values, but
field.risk is 0.22000000000000003 (the binary64 result of
0.55 * (1 - 0.6)), not 0.22; the record passes `Invariants.enforce` at
depth 0 and `Ethics.validate`, and `register_spawn` then takes the counter
from 0 to 1. -/
theorem C6_end_to_end :
    exampleRecord.uncertainty = pyLit 0.55 ∧
    exampleRecord.field.getD "novelty" 99 = pyLit 0.36 ∧
    exampleRecord.field.getD "complexity" 99 = pyLit 0.42 ∧
    exampleRecord.field.getD "risk" 99 = 7926335344172074 / 2^55 ∧
    exampleRecord.field.getD "risk" 99 ≠ pyLit 0.22 ∧
    exampleRecord.field.getD "memory_pressure" 99 = 0 ∧
    exampleRecord.field.getD "drift" 99 = 0 ∧
    Invariants.enforce ⟨0⟩ exampleRecord 0 = .ok () ∧
    Ethics.validate exampleRecord = .ok true ∧
    Invariants.register_spawn ⟨0⟩ = (⟨1⟩, none) := by
  refine ⟨?_, ?_, ?_, ?_, ?_, ?_, ?_, ?_, ?_, ?_⟩
  · rw [exampleRecord_eval, pyLit_d055]
  · rw [exampleRecord_eval, pyLit_d036]
    simp [FieldMap.getD, FieldMap.lookup_cons]
  · rw [exampleRecord_eval, pyLit_d042]
    simp [FieldMap.getD, FieldMap.lookup_cons]
  · rw [exampleRecord_eval]
    simp [FieldMap.getD, FieldMap.lookup_cons]
  · rw [exampleRecord_eval, pyLit_d022]
    simp [FieldMap.getD, FieldMap.lookup_cons]
    norm_num
  · rw [exampleRecord_eval]
    simp [FieldMap.getD, FieldMap.lookup_cons]
  · rw [exampleRecord_eval]
    simp [FieldMap.getD, FieldMap.lookup_cons]
  · rw [exampleRecord_eval]
    norm_num [Invariants.enforce, Invariants.MAX_UNCERTAINTY,
      Invariants.MAX_DEPTH, Invariants.MIN_COHERENCE, Invariants.MAX_AGENTS]
  · rw [exampleRecord_eval]
    simp [Ethics.validate, FieldMap.getD, FieldMap.lookup_cons] <;> norm_num
  · norm_num [Invariants.register_spawn, Invariants.MAX_AGENTS]

/-- C7: dissolving an agent spawned with record R yields a residue with
final_coherence = R.coherence, final_uncertainty = R.uncertainty and
final_field equal in content to R.field but stored in a fresh (copied, not
aliased) cell, so mutating the residue's final_field afterwards leaves
R.field unchanged. The first conjunct is the value-level round trip through
`spawn`/`dissolve`; the rest is the heap-level copy/no-alias statement. -/
theorem C7_dissolution_residue (s : Store) (r : RecordRef) (a : AwarenessState)
    (llm : Option LLMConfig) (h : r.fieldRef < s.cells.length) :
    ((AgentGeneration.spawn a llm).dissolve =
      some ({ awareness := none, llm := llm, alive := false },
            { final_coherence := a.coherence,
              final_uncertainty := a.uncertainty,
              final_field := a.field })) ∧
    (dissolveHeap s r).2.final_coherence = r.coherence ∧
    (dissolveHeap s r).2.final_uncertainty = r.uncertainty ∧
    (dissolveHeap s r).1.read (dissolveHeap s r).2.final_field = s.read r.fieldRef ∧
    (dissolveHeap s r).2.final_field ≠ r.fieldRef ∧
    ∀ f : FieldMap,
      ((dissolveHeap s r).1.write (dissolveHeap s r).2.final_field f).read r.fieldRef =
        s.read r.fieldRef := by
  have hfresh : (dissolveHeap s r).2.final_field = s.cells.length := rfl
  refine ⟨rfl, rfl, rfl, ?_, ?_, ?_⟩
  · exact Store.read_alloc_fresh s (s.read r.fieldRef)
  · rw [hfresh]; omega
  · intro f
    have h1 : (dissolveHeap s r).1 = (s.alloc (s.read r.fieldRef)).1 := rfl
    rw [hfresh, h1, Store.read_write_ne _ _ _ _ (by omega),
      Store.read_alloc_old s _ _ h]

/-- Witness for C7 at a one-cell store: the residue's field cell is fresh,
and rewriting it leaves the record's cell intact. -/
theorem C7_dissolution_residue_witness :
    (dissolveHeap ⟨[[("risk", 0.5)]]⟩ ⟨0, 0.7, 0.3⟩).2.final_field ≠ 0 ∧
    ((dissolveHeap ⟨[[("risk", 0.5)]]⟩ ⟨0, 0.7, 0.3⟩).1.write
        (dissolveHeap ⟨[[("risk", 0.5)]]⟩ ⟨0, 0.7, 0.3⟩).2.final_field
        [("risk", 0.9)]).read 0 =
      Store.read ⟨[[("risk", 0.5)]]⟩ 0 := by
  have h := C7_dissolution_residue ⟨[[("risk", 0.5)]]⟩ ⟨0, 0.7, 0.3⟩
    ⟨[], 1, 0⟩ none (by decide)
  exact ⟨h.2.2.2.2.1, h.2.2.2.2.2 [("risk", 0.9)]⟩

theorem Continuity.coherence_getLastD (hd : AwarenessState)
    (tl : List AwarenessState) :
    ((hd :: tl).map (fun s => s.coherence)).getLastD 0 =
      ((hd :: tl).getLastD default).coherence := by
  obtain ⟨x, hx⟩ : ∃ x, (hd :: tl).getLast? = some x := by
    cases hg : (hd :: tl).getLast? with
    | some x => exact ⟨x, rfl⟩
    | none => simp at hg
  rw [List.getLastD_eq_getLast?, List.getLastD_eq_getLast?,
    List.getLast?_map, hx]
  rfl

/-- C8: `Continuity.assess []` returns exactly the zero-state result, and
on every non-empty history the trend is "insufficient_data" for length < 2
and otherwise improving/degrading/stable by comparing last vs first
coherence, drift_events counts entries from index 1 on with
field.drift > 0.2, and continuous = (drift_events == 0). The function is
total, so it never raises. -/
theorem C8_continuity_assess (hd : AwarenessState) (tl : List AwarenessState) :
    Continuity.assess [] =
      { length := 0, continuous := false, average_coherence := 0.0,
        coherence_trend := "none", drift_events := 0 } ∧
    (Continuity.assess (hd :: tl)).coherence_trend =
      Continuity.coherenceTrendSpec (hd :: tl) ∧
    (Continuity.assess (hd :: tl)).drift_events =
      Continuity.driftEventsSpec (hd :: tl) ∧
    (Continuity.assess (hd :: tl)).continuous =
      ((Continuity.assess (hd :: tl)).drift_events == 0) ∧
    (Continuity.assess (hd :: tl)).length = tl.length + 1 := by
  refine ⟨rfl, ?_, rfl, rfl, rfl⟩
  cases tl with
  | nil => simp [Continuity.assess, Continuity.coherenceTrendSpec]
  | cons x xs =>
      simp only [Continuity.assess, Continuity.coherenceTrendSpec,
        List.length_map, List.length_cons]
      rw [Continuity.coherence_getLastD hd (x :: xs)]
      rw [if_pos (show 2 ≤ xs.length + 1 + 1 from by omega),
        if_neg (show ¬(xs.length + 1 + 1 = 0) from by omega),
        if_neg (show ¬(xs.length + 1 + 1 < 2) from by omega)]
      rfl

/-- C9: if the memory mapping has no "coherence" entry, or its "coherence"
entry equals the record's coherence (as after `Memory.update` on the same
record, the reference orchestrator's order), then `Feedback.apply` sets
feedback_delta to exactly 0, `is_positive` holds, and the
feedback_delta < -0.2 branch of `requires_correction` cannot fire (only
the drift branch can). -/
theorem C9_feedback_delta_zero (memory : FieldMap) (a : AwarenessState)
    (h : memory.lookup "coherence" = none ∨
      memory.lookup "coherence" = some a.coherence) :
    (Feedback.apply memory a).getD "feedback_delta" 99 = 0 ∧
    Feedback.is_positive (Feedback.apply memory a) = true ∧
    Feedback.requires_correction (Feedback.apply memory a) =
      decide (a.field.getD "drift" 0.0 > 0.3) ∧
    ∀ m : Memory, (Memory.update m a).state.lookup "coherence" = some a.coherence := by
  have hdelta : ∀ d : ℚ, (Feedback.apply memory a).getD "feedback_delta" d = 0 := by
    intro d
    have hread : (memory.set "feedback" a.coherence).getD "coherence" a.coherence
        = a.coherence := by
      rw [FieldMap.getD_set_ne _ _ _ _ _ (by decide)]
      rcases h with h | h <;> simp [FieldMap.getD, h]
    simp only [Feedback.apply, hread]
    rw [FieldMap.getD_set_ne _ _ _ _ _ (by decide),
      FieldMap.getD_set_ne _ _ _ _ _ (by decide),
      FieldMap.getD_set_self]
    ring
  have hdrift : (Feedback.apply memory a).getD "feedback_drift" 0.0 =
      a.field.getD "drift" 0.0 := by
    simp only [Feedback.apply]
    rw [FieldMap.getD_set_ne _ _ _ _ _ (by decide), FieldMap.getD_set_self]
  refine ⟨hdelta 99, ?_, ?_, ?_⟩
  · simp only [Feedback.is_positive, hdelta]
    norm_num
  · simp only [Feedback.requires_correction, hdelta 0.0, hdrift]
    norm_num
  · intro m
    rw [Memory.update]
    exact FieldMap.lookup_set_ne _ _ _ _ (by decide) |>.trans
      (FieldMap.lookup_set_self _ _ _)

/-- Witness for C9 on an empty memory mapping and on a mapping whose
"coherence" entry was just written by `Memory.update`. -/
theorem C9_feedback_delta_zero_witness :
    Feedback.is_positive (Feedback.apply [] ⟨[("drift", 0.1)], 0.5, 0.4⟩) = true ∧
    (Feedback.apply [] ⟨[("drift", 0.1)], 0.5, 0.4⟩).getD "feedback_delta" 99 = 0 := by
  have h := C9_feedback_delta_zero [] ⟨[("drift", 0.1)], 0.5, 0.4⟩ (Or.inl rfl)
  exact ⟨h.2.1, h.1⟩

/-- C10: `dissolve` is not idempotent and is total only for live agents: a
first dissolve on a freshly spawned agent returns the residue and leaves
the agent dead with its record reference cleared to None; a second
dissolve on that agent fails (it cannot read coherence from the cleared
reference) instead of returning another residue. -/
theorem C10_dissolve_not_idempotent (a : AwarenessState) (llm : Option LLMConfig) :
    (AgentGeneration.spawn a llm).dissolve =
      some ({ awareness := none, llm := llm, alive := false },
            { final_coherence := a.coherence,
              final_uncertainty := a.uncertainty,
              final_field := a.field }) ∧
    (AgentGeneration.spawn a llm).alive = true ∧
    ({ awareness := none, llm := llm, alive := false } : EmergentAgent).alive = false ∧
    ({ awareness := none, llm := llm, alive := false } : EmergentAgent).dissolve = none := by
  exact ⟨rfl, rfl, rfl, rfl⟩

/-- Witness for C3 at the full counter (failure, rollback) and below it
(success, increment). -/
theorem C3_register_spawn_rollback_witness :
    ((Invariants.register_spawn ⟨20⟩).2 = some "agent_population_exceeded" ∧
      (Invariants.register_spawn ⟨20⟩).1 = ⟨20⟩) ∧
    (Invariants.register_spawn ⟨19⟩).1.active_agents = 20 := by
  have h20 := C3_register_spawn_rollback ⟨20⟩ (by norm_num) (by norm_num)
  have h19 := C3_register_spawn_rollback ⟨19⟩ (by norm_num) (by norm_num)
  have hfail : (Invariants.register_spawn ⟨20⟩).2 = some "agent_population_exceeded" :=
    h20.2.1.mpr rfl
  exact ⟨⟨hfail, h20.2.2.1 hfail⟩, h19.2.2.2 (by rfl)⟩
